import Mathlib

/-!
# Verification of `ghglance.py`

A shallow embedding, in Lean 4, of the fetch-and-normalize pipeline of
`ghglance.py`: the relative-time formatter, the remote-identity extractor,
the paginated REST client, the two fetch strategies, the per-repository
collection loop of `main`, and the repository locator.

Modelling conventions:
* Python machine integers are `Int`/`Nat`; Python floor division `//` on
  integers is `Int.fdiv`.
* Timestamps handed to the relative-time formatter are epoch seconds
  (`Int`); ISO-8601 parsing belongs to the excluded stdlib layer.
* Python strings handled character by character are `List Char`; strings
  only stored or compared are `String`.
* The network and process transports are external collaborators, so each
  HTTP request's outcome (parsed body or HTTP error status) and each
  subprocess result are inputs to the embedded functions.
* Python exceptions raised by the fetch layer (`RuntimeError`) are
  `Except String`, carrying the exception message.
-/

namespace Ghglance

/-! ## Relative-time formatter (`format_relative_time`, lines 66-91)

The source computes `seconds = int(delta.total_seconds())` and then walks
coarser and coarser buckets.  `format_elapsed` embeds the bucket walk on the
elapsed seconds; `format_relative_time` adds the `None -> "-"` guard and the
`now - dt` subtraction (both instants as epoch seconds). -/

/-- The bucket walk of `format_relative_time` on elapsed seconds
(lines 73-91); Python `//` is `Int.fdiv`.  The source writes the same string
in both arms of its singular/plural conditionals except for `day`/`days`,
and so does this embedding. -/
def format_elapsed (seconds : Int) : String :=
  if seconds < 60 then "1 min ago"
  else
    let minutes := Int.fdiv seconds 60
    if minutes < 60 then toString minutes ++ " min ago"
    else
      let hours := Int.fdiv minutes 60
      if hours < 24 then
        (if hours = 1 then toString hours ++ " hr ago" else toString hours ++ " hr ago")
      else
        let days := Int.fdiv hours 24
        if days < 7 then
          (if days = 1 then toString days ++ " day ago" else toString days ++ " days ago")
        else
          let weeks := Int.fdiv days 7
          if weeks < 5 then
            (if weeks = 1 then toString weeks ++ " wk ago" else toString weeks ++ " wk ago")
          else
            let months := Int.fdiv days 30
            if months < 12 then
              (if months = 1 then toString months ++ " mo ago" else toString months ++ " mo ago")
            else
              let years := Int.fdiv days 365
              if years = 1 then toString years ++ " yr ago" else toString years ++ " yr ago"

/-- `format_relative_time` (lines 66-72): a missing timestamp renders as
`"-"`; otherwise the elapsed seconds between `now` and the timestamp are
bucketed.  Timestamps are epoch seconds. -/
def format_relative_time (iso_time : Option Int) (now : Int) : String :=
  match iso_time with
  | none => "-"
  | some t => format_elapsed (now - t)

/-- The bucket index (0 = minutes, 1 = hours, 2 = days, 3 = weeks,
4 = months, 5 = years) and numeric bucket value produced by the branch
structure of `format_elapsed`; same branches, with `Int.fdiv` rewritten to
`/` (`Int.ediv`), which agrees on the non-negative divisors used here. -/
def relTimeBucket (seconds : Int) : Nat × Int :=
  if seconds < 60 then (0, 1)
  else
    let minutes := seconds / 60
    if minutes < 60 then (0, minutes)
    else
      let hours := minutes / 60
      if hours < 24 then (1, hours)
      else
        let days := hours / 24
        if days < 7 then (2, days)
        else
          let weeks := days / 7
          if weeks < 5 then (3, weeks)
          else
            let months := days / 30
            if months < 12 then (4, months)
            else (5, days / 365)

/-- Rendering of a bucket index/value pair as the formatter's string. -/
def renderBucket : Nat × Int → String
  | (0, v) => toString v ++ " min ago"
  | (1, v) => toString v ++ " hr ago"
  | (2, v) => if v = 1 then toString v ++ " day ago" else toString v ++ " days ago"
  | (3, v) => toString v ++ " wk ago"
  | (4, v) => toString v ++ " mo ago"
  | (_, v) => toString v ++ " yr ago"

lemma fdiv_const (a b : Int) (hb : 0 ≤ b) : Int.fdiv a b = a / b :=
  Int.fdiv_eq_ediv a hb

set_option maxHeartbeats 1600000 in
/-- C1: relative-time formatting is monotonic in elapsed time.  The first
conjunct identifies `relTimeBucket` as the bucket index and value actually
rendered by `format_elapsed`; the second states that for non-negative
elapsed intervals `s1 < s2`, the bucket of `s2` is coarser, or equally
coarse with a bucket value at least that of `s1`. -/
theorem C1_relative_time_monotonic :
    (∀ s : Int, format_elapsed s = renderBucket (relTimeBucket s)) ∧
    (∀ s1 s2 : Int, 0 ≤ s1 → s1 < s2 →
      (relTimeBucket s1).1 < (relTimeBucket s2).1 ∨
        ((relTimeBucket s1).1 = (relTimeBucket s2).1 ∧
          (relTimeBucket s1).2 ≤ (relTimeBucket s2).2)) := by
  have h60 : ∀ a : Int, Int.fdiv a 60 = a / 60 := fun a => Int.fdiv_eq_ediv a (by norm_num)
  have h24 : ∀ a : Int, Int.fdiv a 24 = a / 24 := fun a => Int.fdiv_eq_ediv a (by norm_num)
  have h7 : ∀ a : Int, Int.fdiv a 7 = a / 7 := fun a => Int.fdiv_eq_ediv a (by norm_num)
  have h30 : ∀ a : Int, Int.fdiv a 30 = a / 30 := fun a => Int.fdiv_eq_ediv a (by norm_num)
  have h365 : ∀ a : Int, Int.fdiv a 365 = a / 365 := fun a => Int.fdiv_eq_ediv a (by norm_num)
  constructor
  · intro s
    simp only [format_elapsed, relTimeBucket, h60, h24, h7, h30, h365]
    split_ifs <;> simp only [renderBucket] <;>
      first
        | rfl
        | decide
        | (simp only [if_pos ‹_›])
        | (simp only [if_neg ‹_›])
  · intro s1 s2 h0 hlt
    simp only [relTimeBucket]
    split_ifs <;> dsimp only <;> omega

/-- Witness for C1 at the concrete pair (100 s, 4000 s). -/
theorem C1_witness :
    (0 : Int) ≤ 100 ∧ (100 : Int) < 4000 ∧
      ((relTimeBucket 100).1 < (relTimeBucket 4000).1 ∨
        ((relTimeBucket 100).1 = (relTimeBucket 4000).1 ∧
          (relTimeBucket 100).2 ≤ (relTimeBucket 4000).2)) :=
  ⟨by decide, by decide, C1_relative_time_monotonic.2 100 4000 (by decide) (by decide)⟩

/-! ## Remote identity extractor (`parse_github_owner_repo`, lines 41-55)

Python strings are embedded as `List Char`. -/

/-- Python `str.startswith pat`: `startsWithChars pat s`. -/
def startsWithChars : List Char → List Char → Bool
  | [], _ => true
  | _ :: _, [] => false
  | c :: cs, d :: ds => c == d && startsWithChars cs ds

/-- Splitting at the first occurrence of a character: Python `s.split(c, 1)`
(which returns two pieces when `c` occurs in `s`); `none` when `c` does not
occur. -/
def splitOnceChar (c : Char) : List Char → Option (List Char × List Char)
  | [] => none
  | x :: xs =>
    if x = c then some ([], xs)
    else (splitOnceChar c xs).map (fun p => (x :: p.1, p.2))

/-- Splitting at the first occurrence of a non-empty separator substring:
`none` exactly when Python `sep in s` is false, otherwise
Python `s.split(sep, 1)`. -/
def splitOnceSub (sep : List Char) : List Char → Option (List Char × List Char)
  | [] => none
  | x :: xs =>
    if startsWithChars sep (x :: xs) then some ([], (x :: xs).drop sep.length)
    else (splitOnceSub sep xs).map (fun p => (x :: p.1, p.2))

def lstripSlash (s : List Char) : List Char := s.dropWhile (· == '/')

def rstripSlash (s : List Char) : List Char := (s.reverse.dropWhile (· == '/')).reverse

/-- Python `path.strip("/")` (line 50). -/
def stripSlashes (s : List Char) : List Char := rstripSlash (lstripSlash s)

def dotGit : List Char := ['.', 'g', 'i', 't']

/-- Python `path.endswith(".git")` followed by `path = path[:-4]`
(lines 51-52). -/
def stripDotGitSuffix (s : List Char) : List Char :=
  if startsWithChars dotGit.reverse s.reverse then s.take (s.length - 4) else s

def sshHead : List Char := "git@github.com:".toList

def ghSlash : List Char := "github.com/".toList

/-- Lines 44-49 of `parse_github_owner_repo`: recognize the SSH form
(`split(":", 1)[1]`; the matched head contains the first colon) or the
HTTPS form (everything after the first `"github.com/"`), else `None`. -/
def extract_path (url : List Char) : Option (List Char) :=
  if startsWithChars sshHead url then
    some (((splitOnceChar ':' url).map Prod.snd).getD [])
  else
    match splitOnceSub ghSlash url with
    | some p => some p.2
    | none => none

/-- Lines 41-52: the extracted path after `strip("/")` and removal of a
trailing `".git"`; `none` when the URL is empty (`if not remote_url`) or
matches neither form. -/
def processed_path (url : List Char) : Option (List Char) :=
  if url = [] then none
  else (extract_path url).map (fun p => stripDotGitSuffix (stripSlashes p))

/-- `parse_github_owner_repo` (lines 41-55): when `"/" in path`, the result
is `path.split("/", 1)` — a split at the FIRST slash only; else `None`. -/
def parse_github_owner_repo (url : List Char) : Option (List Char × List Char) :=
  (processed_path url).bind
    (fun path => if '/' ∈ path then splitOnceChar '/' path else none)

/-- Spec-side definition, from the claim's words: the full list of
`/`-separated segments of a path, Python `path.split("/")` with no split
limit.  Used only to state what the claim asserts about segment counts. -/
def spec_segments : List Char → List (List Char)
  | [] => [[]]
  | c :: rest =>
    match spec_segments rest with
    | [] => [[c]]
    | seg :: more => if c = '/' then [] :: seg :: more else (c :: seg) :: more

lemma splitOnceChar_eq (c : Char) :
    ∀ s a b : List Char, splitOnceChar c s = some (a, b) → s = a ++ c :: b ∧ c ∉ a := by
  intro s
  induction s with
  | nil => intro a b h; simp [splitOnceChar] at h
  | cons x xs ih =>
    intro a b h
    rw [splitOnceChar] at h
    split_ifs at h with hx
    · subst hx
      simp only [Option.some.injEq, Prod.mk.injEq] at h
      obtain ⟨rfl, rfl⟩ := h
      simp
    · simp only [Option.map_eq_some', Prod.mk.injEq] at h
      obtain ⟨⟨a', b'⟩, hs, rfl, rfl⟩ := h
      obtain ⟨rfl, hnotin⟩ := ih a' b' hs
      refine ⟨rfl, ?_⟩
      simp only [List.mem_cons, not_or]
      exact ⟨fun hc => hx hc.symm, hnotin⟩

lemma dropWhile_suffix_exists (p : Char → Bool) :
    ∀ s : List Char, ∃ t, s = t ++ s.dropWhile p := by
  intro s
  induction s with
  | nil => exact ⟨[], rfl⟩
  | cons x xs ih =>
    by_cases hx : p x
    · obtain ⟨t, ht⟩ := ih
      exact ⟨x :: t, by rw [List.dropWhile_cons, if_pos hx]; simpa using ht⟩
    · exact ⟨[], by rw [List.dropWhile_cons, if_neg hx, List.nil_append]⟩

lemma lstripSlash_head :
    ∀ (s : List Char) (x : Char) (xs : List Char), lstripSlash s = x :: xs → x ≠ '/' := by
  intro s
  induction s with
  | nil => intro x xs h; simp [lstripSlash] at h
  | cons c cs ih =>
    intro x xs h
    rw [lstripSlash, List.dropWhile_cons] at h
    by_cases hc : c = '/'
    · rw [if_pos (by simp [hc])] at h
      exact ih x xs h
    · rw [if_neg (by simp [hc])] at h
      injection h with h1 h2
      subst h1
      exact hc


lemma rstripSlash_isPre (s : List Char) : ∃ r, s = rstripSlash s ++ r := by
  obtain ⟨t, ht⟩ := dropWhile_suffix_exists (· == '/') s.reverse
  refine ⟨t.reverse, ?_⟩
  rw [rstripSlash]
  calc s = s.reverse.reverse := (List.reverse_reverse s).symm
  _ = (t ++ s.reverse.dropWhile (· == '/')).reverse := by rw [← ht]
  _ = (s.reverse.dropWhile (· == '/')).reverse ++ t.reverse := by rw [List.reverse_append]

lemma stripDotGitSuffix_isPre (q : List Char) : ∃ r, q = stripDotGitSuffix q ++ r := by
  rw [stripDotGitSuffix]
  split_ifs
  · exact ⟨q.drop (q.length - 4), (List.take_append_drop _ q).symm⟩
  · exact ⟨[], by simp⟩

/-- The processed path never starts with a slash: `strip("/")` removes
leading slashes and the later `".git"` truncation only shortens the list. -/
lemma processed_path_head (url p : List Char) (h : processed_path url = some p) :
    ∀ w, p ≠ '/' :: w := by
  intro w hpw
  rw [processed_path] at h
  split_ifs at h
  simp only [Option.map_eq_some'] at h
  obtain ⟨p0, -, hp⟩ := h
  obtain ⟨r1, hr1⟩ := stripDotGitSuffix_isPre (stripSlashes p0)
  obtain ⟨r2, hr2⟩ := rstripSlash_isPre (lstripSlash p0)
  have hss : stripSlashes p0 = p ++ r1 := by rw [hr1, hp]
  have h2 : lstripSlash p0 = (p ++ r1) ++ r2 := by rw [← hss]; exact hr2
  subst hpw
  exact lstripSlash_head p0 '/' (w ++ (r1 ++ r2)) (by simpa using h2) rfl

lemma splitOnceChar_isSome (c : Char) :
    ∀ s : List Char, c ∈ s → ∃ a b, splitOnceChar c s = some (a, b) := by
  intro s
  induction s with
  | nil => simp
  | cons x xs ih =>
    intro hmem
    rw [splitOnceChar]
    by_cases hx : x = c
    · rw [if_pos hx]
      exact ⟨[], xs, rfl⟩
    · rw [if_neg hx]
      have hxs : c ∈ xs := by
        rcases List.mem_cons.mp hmem with h | h
        · exact absurd h.symm hx
        · exact h
      obtain ⟨a, b, hab⟩ := ih hxs
      exact ⟨x :: a, b, by rw [hab]; rfl⟩

/-- C2 (amended): `parse_github_owner_repo` returns an identity exactly when
the processed path contains a `/`; the identity is the split at the FIRST
slash, so the namespace is non-empty and slash-free, while the name is the
remainder of the path, which may itself be empty or contain further
slashes.  A path with no slash (zero or one segments) yields absent. -/
theorem C2_parse_amended :
    (∀ url ns nm : List Char, parse_github_owner_repo url = some (ns, nm) →
        ns ≠ [] ∧ '/' ∉ ns ∧ processed_path url = some (ns ++ '/' :: nm)) ∧
    (∀ url path : List Char, processed_path url = some path → '/' ∈ path →
        ∃ ns nm : List Char, parse_github_owner_repo url = some (ns, nm)) ∧
    (∀ url path : List Char, processed_path url = some path → '/' ∉ path →
        parse_github_owner_repo url = none) := by
  refine ⟨?_, ?_, ?_⟩
  · intro url ns nm h
    rw [parse_github_owner_repo] at h
    cases hp : processed_path url with
    | none => rw [hp] at h; exact absurd h (by simp)
    | some path =>
      rw [hp, Option.some_bind] at h
      split_ifs at h with hmem
      · obtain ⟨heq, hnotin⟩ := splitOnceChar_eq '/' path ns nm h
        subst heq
        refine ⟨?_, hnotin, rfl⟩
        rintro rfl
        exact processed_path_head url _ hp nm rfl
  · intro url path hp hmem
    obtain ⟨a, b, hab⟩ := splitOnceChar_isSome '/' path hmem
    refine ⟨a, b, ?_⟩
    rw [parse_github_owner_repo, hp, Option.some_bind, if_pos hmem]
    exact hab
  · intro url path hp hmem
    rw [parse_github_owner_repo, hp, Option.some_bind]
    simp [hmem]

/-- C2 counterexample: `https://github.com/a/b/c` has a processed path of
three segments, yet the extractor returns the identity `("a", "b/c")`
instead of the absent value the claim requires for any segment count other
than two. -/
theorem C2_counterexample :
    parse_github_owner_repo "https://github.com/a/b/c".toList =
        some ("a".toList, "b/c".toList) ∧
      processed_path "https://github.com/a/b/c".toList = some "a/b/c".toList ∧
      (spec_segments "a/b/c".toList).length = 3 := by
  refine ⟨?_, ?_, ?_⟩ <;> decide

/-- Witness for C2 at the SSH-form URL `git@github.com:a/b.git`. -/
theorem C2_witness :
    "a".toList ≠ [] ∧ '/' ∉ "a".toList ∧
      processed_path "git@github.com:a/b.git".toList =
        some ("a".toList ++ '/' :: "b".toList) :=
  C2_parse_amended.1 "git@github.com:a/b.git".toList "a".toList "b".toList (by decide)

/-! ## Paginated REST fetch: the link-following loop (`github_get`, lines 175-193)

The transport is an external collaborator, so the server is modelled as a
function from request URLs (numbered abstractly) to responses; a response
carries its item list and the optional `rel="next"` URL parsed from its
`Link` header. -/

structure PageResponse (α : Type) where
  items : List α
  next : Option Nat

/-- The `while url:` loop of `github_get` (lines 178-193): follow `next`
links until absent, extending the accumulated item list with each page's
items.  `fuel` bounds the number of iterations, and the result is `none` on
fuel exhaustion (the Python loop just keeps following links, so any
terminating run is reproduced by a large enough fuel). -/
def github_get {α : Type} (server : Nat → PageResponse α) :
    Nat → Option Nat → List α → Option (List α)
  | _, none, acc => some acc
  | 0, some _, _ => none
  | fuel + 1, some u, acc =>
    github_get server fuel (server u).next (acc ++ (server u).items)

/-- A chain of pages in which each page's header carries a `next` link to
the following page, except the last — the setting of the claim. -/
def chainServer {α : Type} (pages : List (List α)) : Nat → PageResponse α :=
  fun i => ⟨pages.getD i [], if i + 1 < pages.length then some (i + 1) else none⟩

/-- `github_get` run against a page chain from its first page, with enough
fuel for the whole chain. -/
def github_get_all {α : Type} (pages : List (List α)) : Option (List α) :=
  github_get (chainServer pages) (pages.length + 1) (some 0) []

lemma github_get_chain {α : Type} (pages : List (List α)) :
    ∀ (fuel i : Nat) (acc : List α), pages.length - i < fuel →
      github_get (chainServer pages) fuel (some i) acc =
        some (acc ++ (pages.drop i).flatten) := by
  intro fuel
  induction fuel with
  | zero => intro i acc h; omega
  | succ f ih =>
    intro i acc h
    rw [github_get]
    by_cases hi : i + 1 < pages.length
    · have hlen : i < pages.length := by omega
      have hnext : (chainServer pages i).next = some (i + 1) := by
        simp [chainServer, hi]
      have hitems : (chainServer pages i).items = pages[i] := by
        simp [chainServer, List.getD_eq_getElem?_getD, List.getElem?_eq_getElem hlen]
      rw [hnext, hitems, ih (i + 1) _ (by omega)]
      have hdi : List.drop i pages = pages[i] :: List.drop (i + 1) pages :=
        List.drop_eq_getElem_cons hlen
      rw [hdi]
      simp only [List.flatten_cons, List.append_assoc]
    · have hnext : (chainServer pages i).next = none := by simp [chainServer, hi]
      rw [hnext, github_get]
      by_cases hlen : i < pages.length
      · have hitems : (chainServer pages i).items = pages[i] := by
          simp [chainServer, List.getD_eq_getElem?_getD, List.getElem?_eq_getElem hlen]
        rw [hitems, List.drop_eq_getElem_cons hlen, List.drop_eq_nil_of_le (by omega)]
        simp
      · have hitems : (chainServer pages i).items = [] := by
          simp [chainServer, List.getD_eq_getElem?_getD,
            List.getElem?_eq_none (by omega : pages.length ≤ i)]
        rw [hitems, List.drop_eq_nil_of_le (by omega)]
        simp

/-- C3: for a chain of pages linked by `next` relations (all but the last
page carrying one), the paginated fetch follows the links until absent and
returns exactly the concatenation of all pages' item lists, in page order —
no duplication, no truncation. -/
theorem C3_pagination_concat (α : Type) (pages : List (List α)) :
    github_get_all pages = some pages.flatten := by
  have h := github_get_chain pages (pages.length + 1) 0 [] (by omega)
  simpa [github_get_all] using h

/-! ## REST strategy orchestration in `main` (lines 287-315) -/

/-- The normalized per-repository status dictionary assembled by either
fetch strategy. -/
structure RepoStatus where
  issues : Nat
  prs : Nat
  stars : Nat
  release_tag : String
  release_date : String
  activity : String
deriving DecidableEq

/-- Outcome of one HTTP request: parsed body, or the HTTP status code and
reason of the `HTTPError` that `urllib` raises. -/
inductive HttpResult (α : Type) where
  | ok (val : α)
  | err (code : Nat) (reason : String)
deriving DecidableEq

/-- Whether an `Except` is an error. -/
def isError {ε α : Type} : Except ε α → Bool
  | .error _ => true
  | .ok _ => false

/-- The `RuntimeError` message raised for an HTTP error
(lines 192 and 212). -/
def apiErrorMsg (code : Nat) (reason : String) : String :=
  "GitHub API error " ++ toString code ++ ": " ++ reason

/-- The error behaviour of `github_get` at whole-endpoint granularity
(lines 184-192): any `HTTPError` — 404 included — raises, a success yields
the accumulated item list.  (The link following itself is `github_get` /
`chainServer` above.) -/
def github_get_result {α : Type} (r : HttpResult (List α)) : Except String (List α) :=
  match r with
  | .ok items => .ok items
  | .err code reason => .error (apiErrorMsg code reason)

/-- `github_get_json` (lines 196-212): a single request; `HTTPError` 404
maps to `None`, any other `HTTPError` raises, a success yields the parsed
body. -/
def github_get_json {α : Type} (r : HttpResult α) : Except String (Option α) :=
  match r with
  | .ok v => .ok (some v)
  | .err code reason =>
    if code = 404 then .ok none else .error (apiErrorMsg code reason)

/-- The fields of the repository-metadata JSON consulted by `main`
(lines 304-307). -/
structure RepoInfoJson where
  stargazers_count : Option Nat
  pushed_at : Option Int
deriving DecidableEq

/-- The fields of the latest-release JSON consulted by `main`
(lines 308-312). -/
structure ReleaseJson where
  tag_name : Option String
  created_at : Option String
deriving DecidableEq

/-- Python `x or d` for an optional string (`.get(...) or d`): `None` and
the empty string are falsy. -/
def pyOrStr (x : Option String) (d : String) : String :=
  match x with
  | none => d
  | some s => if s = "" then d else s

/-- Python `created_at.split("T", 1)[0]`: the characters before the first
`'T'`. -/
def takeBeforeT (s : String) : String :=
  String.mk (s.toList.takeWhile (fun c => c != 'T'))

/-- The outcomes of the four REST requests issued per repository by the
REST branch of `main` (lines 287-308): open issues (paged), open pulls
(paged), repository metadata, latest release.  Items of the issue/pull
listings are JSON objects, modelled by their key lists (only key
membership is consulted). -/
structure RestResponses where
  issues : HttpResult (List (List String))
  pulls : HttpResult (List (List String))
  repoInfo : HttpResult RepoInfoJson
  release : HttpResult ReleaseJson
deriving DecidableEq

/-- The REST-strategy fetch block of `main` (lines 287-315), with the
`try`/`raise` control flow as `Except`: issues and pulls are fetched
paged, the issue list is post-filtered by the `"pull_request"` marker key,
repository metadata falls back to `{}` (`or {}`), and a missing release
(404, mapped to `None` by `github_get_json`) sets both release fields to
`"-"`.  `if release:` is modelled as presence of the parsed release object
(a successful `releases/latest` body is a non-empty JSON object). -/
def fetch_rest (w : RestResponses) (now : Int) : Except String RepoStatus :=
  match github_get_result w.issues with
  | .error e => .error e
  | .ok issuesRaw =>
    match github_get_result w.pulls with
    | .error e => .error e
    | .ok prs =>
      let issues := issuesRaw.filter (fun item => !(item.contains "pull_request"))
      let issues_count := issues.length
      let prs_count := prs.length
      match github_get_json w.repoInfo with
      | .error e => .error e
      | .ok repoInfoOpt =>
        let repo_info := repoInfoOpt.getD ⟨none, none⟩
        let stars := repo_info.stargazers_count.getD 0
        let activity := format_relative_time repo_info.pushed_at now
        match github_get_json w.release with
        | .error e => .error e
        | .ok none => .ok ⟨issues_count, prs_count, stars, "-", "-", activity⟩
        | .ok (some rel) =>
          let release_tag := pyOrStr rel.tag_name "-"
          let release_date :=
            match rel.created_at with
            | none => "-"
            | some ca => if ca = "" then "-" else takeBeforeT ca
          .ok ⟨issues_count, prs_count, stars, release_tag, release_date, activity⟩

lemma filter_not_length {α : Type} (p : α → Bool) (l : List α) :
    (l.filter (fun a => !(p a))).length + l.countP p = l.length := by
  induction l with
  | nil => rfl
  | cons x xs ih =>
    cases hx : p x <;> simp [List.filter_cons, List.countP_cons, hx] <;> omega

/-- Whenever the REST fetch succeeds, its issue count is the length of the
issue-endpoint items filtered by the `"pull_request"` marker key. -/
lemma fetch_rest_ok_issues (w : RestResponses) (now : Int)
    (items : List (List String)) (st : RepoStatus)
    (hi : w.issues = .ok items) (hf : fetch_rest w now = .ok st) :
    st.issues = (items.filter (fun it => !(it.contains "pull_request"))).length := by
  obtain ⟨wi, wp, wr, wl⟩ := w
  dsimp only at hi
  subst hi
  rw [fetch_rest] at hf
  simp only [github_get_result] at hf
  split at hf
  · exact absurd hf (by simp)
  · split at hf
    · exact absurd hf (by simp)
    · split at hf
      · exact absurd hf (by simp)
      · injection hf with h
        subst h
        rfl
      · injection hf with h
        subst h
        rfl

/-- C4: in the REST strategy every issues-endpoint item carrying the
`"pull_request"` marker key is excluded from the open-issue count — the
count plus the number of marked items is the total item count — and, in
particular, a response of one marked and one unmarked item yields an issue
count of exactly 1. -/
theorem C4_pull_request_filter :
    (∀ (now : Int) (w : RestResponses) (items : List (List String)) (st : RepoStatus),
        w.issues = .ok items → fetch_rest w now = .ok st →
        st.issues + items.countP (fun it => it.contains "pull_request") = items.length) ∧
    (∀ (now : Int) (w : RestResponses) (a b : List String) (st : RepoStatus),
        w.issues = .ok [a, b] → a.contains "pull_request" = true →
        b.contains "pull_request" = false → fetch_rest w now = .ok st →
        st.issues = 1) := by
  constructor
  · intro now w items st hi hf
    rw [fetch_rest_ok_issues w now items st hi hf]
    exact filter_not_length _ items
  · intro now w a b st hi ha hb hf
    rw [fetch_rest_ok_issues w now [a, b] st hi hf]
    have ha' : "pull_request" ∈ a := by simpa using ha
    have hb' : "pull_request" ∉ b := by simpa using hb
    simp [List.filter_cons, ha', hb']

/-- Witness for C4 at a two-item issues response. -/
theorem C4_witness :
    (⟨1, 0, 0, "-", "-", "-"⟩ : RepoStatus).issues = 1 :=
  C4_pull_request_filter.2 0
    ⟨.ok [["pull_request"], []], .ok [], .ok ⟨none, none⟩, .ok ⟨none, none⟩⟩
    ["pull_request"] [] ⟨1, 0, 0, "-", "-", "-"⟩ rfl (by decide) (by decide) rfl

/-- C5: in the REST strategy an HTTP 404 on the latest-release request,
with the three required requests succeeding, still yields a full record
whose release tag and date are the `"-"` sentinel; any non-404 HTTP error
on the release request makes the fetch fail with a `FetchError`
(`RuntimeError`). -/
theorem C5_release_404 :
    (∀ (now : Int) (w : RestResponses) (a b : List (List String))
        (info : RepoInfoJson) (reason : String),
        w.issues = .ok a → w.pulls = .ok b → w.repoInfo = .ok info →
        w.release = .err 404 reason →
        ∃ st : RepoStatus, fetch_rest w now = .ok st ∧
          st.release_tag = "-" ∧ st.release_date = "-") ∧
    (∀ (now : Int) (w : RestResponses) (code : Nat) (reason : String),
        w.release = .err code reason → code ≠ 404 →
        isError (fetch_rest w now) = true) := by
  constructor
  · intro now w a b info reason hi hp hr hrel
    obtain ⟨wi, wp, wr, wl⟩ := w
    dsimp only at hi hp hr hrel
    subst hi; subst hp; subst hr; subst hrel
    exact ⟨_, rfl, rfl, rfl⟩
  · intro now w code reason hrel hcode
    obtain ⟨wi, wp, wr, wl⟩ := w
    dsimp only at hrel
    subst hrel
    rcases wi with items | ⟨c1, r1⟩
    · rcases wp with pulls | ⟨c2, r2⟩
      · rcases wr with info | ⟨c3, r3⟩
        · simp [fetch_rest, github_get_result, github_get_json, isError, hcode]
        · by_cases h3 : c3 = 404
          · subst h3
            simp [fetch_rest, github_get_result, github_get_json, isError, hcode]
          · simp [fetch_rest, github_get_result, github_get_json, isError, h3]
      · rfl
    · rfl

/-- Witness for C5 with a 404 release response. -/
theorem C5_witness :
    ∃ st : RepoStatus,
      fetch_rest ⟨.ok [], .ok [], .ok ⟨none, none⟩, .err 404 "Not Found"⟩ 0 = .ok st ∧
        st.release_tag = "-" ∧ st.release_date = "-" :=
  C5_release_404.1 0 ⟨.ok [], .ok [], .ok ⟨none, none⟩, .err 404 "Not Found"⟩
    [] [] ⟨none, none⟩ "Not Found" rfl rfl rfl rfl

/-- C9: in the REST strategy an HTTP 404 on the required repository-metadata
request does not abort the fetch: `github_get_json` maps the 404 to `None`,
`main` substitutes `{}` (`or {}`), and the record is produced with a star
count of 0 and a `"-"` last-activity value. -/
theorem C9_repo_info_404 :
    (∀ reason : String,
        github_get_json (HttpResult.err 404 reason : HttpResult RepoInfoJson) = .ok none) ∧
    (∀ (now : Int) (w : RestResponses) (items pulls : List (List String))
        (reason : String) (rel : ReleaseJson),
        w.issues = .ok items → w.pulls = .ok pulls →
        w.repoInfo = .err 404 reason → w.release = .ok rel →
        ∃ st : RepoStatus, fetch_rest w now = .ok st ∧
          st.stars = 0 ∧ st.activity = "-") := by
  constructor
  · intro reason; rfl
  · intro now w items pulls reason rel hi hp hr hrel
    obtain ⟨wi, wp, wr, wl⟩ := w
    dsimp only at hi hp hr hrel
    subst hi; subst hp; subst hr; subst hrel
    exact ⟨_, rfl, rfl, rfl⟩

/-- Witness for C9 with a 404 metadata response. -/
theorem C9_witness :
    ∃ st : RepoStatus,
      fetch_rest ⟨.ok [], .ok [], .err 404 "Not Found", .ok ⟨none, none⟩⟩ 0 = .ok st ∧
        st.stars = 0 ∧ st.activity = "-" :=
  C9_repo_info_404.2 0 ⟨.ok [], .ok [], .err 404 "Not Found", .ok ⟨none, none⟩⟩
    [] [] "Not Found" ⟨none, none⟩ rfl rfl rfl rfl

/-! ## The per-repository loop of `main` (lines 269-334) and the renderer -/

/-- The result dictionary appended per repository (lines 320-331): local
directory name, `owner/repo` reference, and the fetched status fields. -/
structure StatusRecord where
  name : String
  repo : String
  status : RepoStatus
deriving DecidableEq

/-- One repository's processing input in the loop of `main`
(lines 270-318): `none` when the remote URL is absent or unparseable (the
`continue` at line 274), otherwise the directory name, the `owner/repo`
reference, and the outcome of the fetch `try` block (lines 277-318). -/
abbrev RepoOutcome := Option (String × String × Except String RepoStatus)

/-- The accumulation loop of `main` (lines 269-331): unparseable
repositories are skipped, a failing fetch is caught, logged to standard
error and skipped (`except RuntimeError`, lines 316-318), and a successful
fetch appends its record to `results`. -/
def collect_results : List RepoOutcome → List StatusRecord
  | [] => []
  | none :: rest => collect_results rest
  | some (_, _, .error _) :: rest => collect_results rest
  | some (nm, rp, .ok st) :: rest => ⟨nm, rp, st⟩ :: collect_results rest

/-- Python `str.ljust`. -/
def ljust (s : String) (w : Nat) : String :=
  s ++ String.mk (List.replicate (w - s.length) ' ')

/-- Python `str.rjust`. -/
def rjust (s : String) (w : Nat) : String :=
  String.mk (List.replicate (w - s.length) ' ') ++ s

/-- A column width: the maximum of the header label width and the widest
value in the column (lines 336-342). -/
def colWidth (header : String) (vals : List String) : Nat :=
  (vals.map String.length).foldl Nat.max header.length

/-- The table renderer of `main` (lines 336-378), with the color escapes
disabled: when stdout is not an interactive terminal or `--no-color` is
passed, every color variable is the empty string (line 267), and this
model omits terminal detection. -/
def render_table (results : List StatusRecord) : List String :=
  let activity_width := colWidth "ACTIVITY" (results.map (fun r => r.status.activity))
  let issues_width := colWidth "ISSUES" (results.map (fun r => toString r.status.issues))
  let prs_width := colWidth "PR" (results.map (fun r => toString r.status.prs))
  let stars_width := colWidth "STAR" (results.map (fun r => toString r.status.stars))
  let rel_width := colWidth "REL" (results.map (fun r => r.status.release_tag))
  let released_width := colWidth "RELEASED" (results.map (fun r => r.status.release_date))
  let repo_width := colWidth "REPO" (results.map (fun r => r.repo))
  let header :=
    ljust "ACTIVITY" activity_width ++ "  " ++ rjust "ISSUES" issues_width ++ "  " ++
      rjust "PR" prs_width ++ "  " ++ rjust "STAR" stars_width ++ "  " ++
      ljust "REL" rel_width ++ "  " ++ ljust "RELEASED" released_width ++ "  " ++
      ljust "REPO" repo_width
  header :: results.map (fun r =>
    ljust r.status.activity activity_width ++ "  " ++
      rjust (toString r.status.issues) issues_width ++ "  " ++
      rjust (toString r.status.prs) prs_width ++ "  " ++
      rjust (toString r.status.stars) stars_width ++ "  " ++
      ljust r.status.release_tag rel_width ++ "  " ++
      ljust r.status.release_date released_width ++ "  " ++
      ljust r.repo repo_width)

/-- The informational message of line 251 (the root path interpolated there
belongs to the excluded CLI layer). -/
def no_repos_message : String := "No git repositories found"

/-- The decision structure of `main` (lines 236-334) after flag parsing:
the exit code and the lines printed to standard output.  `root_is_dir` is
the `root.is_dir()` check (line 237); `repos` carries, for each discovered
repository in sorted order, the identity and fetch outcome.  Error and
warning lines go to standard error and are not part of the stdout model. -/
def run_main (root_is_dir : Bool) (repos : List RepoOutcome) : Nat × List String :=
  if !root_is_dir then (1, [])
  else if repos.isEmpty then (0, [no_repos_message])
  else
    let results := collect_results repos
    if results.isEmpty then (0, [])
    else (0, render_table results)

lemma run_main_true_fst (repos : List RepoOutcome) : (run_main true repos).1 = 0 := by
  rw [run_main]
  by_cases h1 : repos.isEmpty <;> by_cases h2 : (collect_results repos).isEmpty <;>
    simp [h1, h2]

/-- C6: a per-repository fetch failure is caught and only skips that
repository: the collected records are exactly those of the other
repositories — the ones already collected before the failure are
preserved — and the run still finishes (exit code 0, no abort). -/
theorem C6_partial_failure_isolated
    (pre post : List RepoOutcome) (nm rp : String) (e : String) :
    collect_results (pre ++ some (nm, rp, .error e) :: post) =
        collect_results pre ++ collect_results post ∧
      (run_main true (pre ++ some (nm, rp, .error e) :: post)).1 = 0 := by
  refine ⟨?_, run_main_true_fst _⟩
  induction pre with
  | nil => simp [collect_results]
  | cons h t ih =>
    match h with
    | none => simpa [collect_results] using ih
    | some (nm', rp', .error e') => simpa [collect_results] using ih
    | some (nm', rp', .ok st') => simp [collect_results, ih]

/-- C7 counterexample: with a directory root and a single repository whose
fetch fails, the run exits with code 0 but prints nothing — there is no
informational message in the zero-successful-results case, contrary to the
claim. -/
theorem C7_counterexample :
    run_main true [some ("r", "o/r", .error "GitHub API error 500: boom")] = (0, []) := rfl

/-- C7 (amended): the program exits 1 exactly when the root is not a
directory; in every other case it exits 0 — the zero-repositories case
prints the informational message, while the zero-successful-results case
prints nothing at all and still returns success. -/
theorem C7_exit_codes :
    ∀ (rd : Bool) (repos : List RepoOutcome),
      ((run_main rd repos).1 = 1 ↔ rd = false) ∧
      (rd = true → repos = [] → run_main rd repos = (0, [no_repos_message])) ∧
      (rd = true → repos ≠ [] → collect_results repos = [] →
        run_main rd repos = (0, [])) := by
  intro rd repos
  cases rd
  · exact ⟨by simp [run_main], by simp, by simp⟩
  · refine ⟨by simp [run_main_true_fst repos], ?_, ?_⟩
    · rintro - rfl
      rfl
    · rintro - hne hempty
      rw [run_main]
      simp [List.isEmpty_iff, hne, hempty]

/-- Witness for C7: a directory root with one failing repository exits 0
with no printed line. -/
theorem C7_witness :
    run_main true [some ("r", "o/r", Except.error "boom")] = (0, []) :=
  (C7_exit_codes true [some ("r", "o/r", Except.error "boom")]).2.2 rfl (by simp) rfl

/-! ## Batched GraphQL strategy (`gh_graphql_repo_info`, lines 94-172) -/

/-- The inner target of an annotated tag (lines 108-112): an optional
commit date. -/
structure GqlTagTarget where
  committedDate : Option Int
deriving DecidableEq

/-- The target of the default branch reference (lines 104-114, 155-163):
a commit carrying its commit timestamp, an annotated tag wrapping an
optional commit target, or some other object kind (`__typename`
dispatch). -/
inductive GqlTarget where
  | commit (committedDate : Option Int)
  | tag (target : Option GqlTagTarget)
  | other
deriving DecidableEq

/-- `defaultBranchRef` (lines 155-158): `branch.get("target")` may be
absent. -/
structure GqlBranchRef where
  target : Option GqlTarget
deriving DecidableEq

/-- One node of `releases(first:1, ...)` (lines 101-103, 147-154). -/
structure GqlRelease where
  tagName : Option String
  createdAt : Option String
deriving DecidableEq

/-- The repository object of the GraphQL response (lines 141-163). -/
structure GqlRepoData where
  stargazerCount : Option Nat
  issues_totalCount : Nat
  pullRequests_totalCount : Nat
  releases : List GqlRelease
  defaultBranchRef : Option GqlBranchRef
deriving DecidableEq

/-- The parsed standard-output JSON of `gh api graphql`:
`data.get("data", {}).get("repository")` (line 141) — a missing `data` key
and a missing or null `repository` key both yield no repository object,
collapsed here into one `Option`. -/
structure GqlResponse where
  repository : Option GqlRepoData
deriving DecidableEq

/-- The result of the `gh` subprocess (lines 129-139): exit code, standard
error after `strip()`, and the parsed standard output — `none` when the
output is blank. -/
structure GhRun where
  returncode : Int
  stderr : String
  stdout : Option GqlResponse
deriving DecidableEq

/-- `gh_graphql_repo_info` (lines 94-172): raises (`Except.error`) when
the client exits non-zero, emits no output, or the response carries no
repository object; otherwise assembles the status, an empty release-node
list mapping both release fields to `"-"` and the commit timestamp
resolved through an annotated tag when needed. -/
def gh_graphql_repo_info (r : GhRun) (now : Int) : Except String RepoStatus :=
  if r.returncode ≠ 0 then
    .error (if r.stderr = "" then "gh api failed" else r.stderr)
  else
    match r.stdout with
    | none => .error (if r.stderr = "" then "gh api returned no output" else r.stderr)
    | some resp =>
      match resp.repository with
      | none => .error "repository not found or access denied"
      | some rd =>
        let issues_count := rd.issues_totalCount
        let prs_count := rd.pullRequests_totalCount
        let stars := rd.stargazerCount.getD 0
        let (release_tag, release_date) :=
          match rd.releases with
          | [] => ("-", "-")
          | rel :: _ =>
            (pyOrStr rel.tagName "-",
              match rel.createdAt with
              | none => "-"
              | some ca => if ca = "" then "-" else takeBeforeT ca)
        let committed_at : Option Int :=
          match rd.defaultBranchRef with
          | none => none
          | some br =>
            match br.target with
            | none => none
            | some (.commit d) => d
            | some (.tag tt) => (tt.getD ⟨none⟩).committedDate
            | some .other => none
        .ok ⟨issues_count, prs_count, stars, release_tag, release_date,
          format_relative_time committed_at now⟩

/-- C8: the batched strategy fails exactly when the client process exits
non-zero, emits no output, or the parsed response carries no repository
object; a successful response with no release nodes maps both release
fields to the `"-"` sentinel instead of failing. -/
theorem C8_graphql_failure :
    (∀ (r : GhRun) (now : Int),
        isError (gh_graphql_repo_info r now) = true ↔
          (r.returncode ≠ 0 ∨ r.stdout = none ∨
            Option.bind r.stdout GqlResponse.repository = none)) ∧
    (∀ (r : GhRun) (now : Int) (rd : GqlRepoData),
        r.returncode = 0 → r.stdout = some ⟨some rd⟩ → rd.releases = [] →
        ∃ st : RepoStatus, gh_graphql_repo_info r now = .ok st ∧
          st.release_tag = "-" ∧ st.release_date = "-") := by
  constructor
  · intro r now
    obtain ⟨rc, serr, sout⟩ := r
    by_cases hrc : rc = 0
    · subst hrc
      rcases sout with _ | ⟨_ | rd⟩ <;> simp [gh_graphql_repo_info, isError]
    · simp [gh_graphql_repo_info, isError, hrc]
  · intro r now rd hrc hout hrel
    obtain ⟨rc, serr, sout⟩ := r
    dsimp only at hrc hout
    subst hrc; subst hout
    obtain ⟨sc, ic, pc, rels, dbr⟩ := rd
    dsimp only at hrel
    subst hrel
    exact ⟨_, rfl, rfl, rfl⟩

/-- Witness for C8 with an empty release-node list. -/
theorem C8_witness :
    ∃ st : RepoStatus,
      gh_graphql_repo_info ⟨0, "", some ⟨some ⟨none, 0, 0, [], none⟩⟩⟩ 0 = .ok st ∧
        st.release_tag = "-" ∧ st.release_date = "-" :=
  C8_graphql_failure.2 ⟨0, "", some ⟨some ⟨none, 0, 0, [], none⟩⟩⟩ 0
    ⟨none, 0, 0, [], none⟩ rfl rfl rfl

/-! ## Repository locator (`find_repos`, lines 31-38)

The directory-tree walking primitive is an external collaborator, so the
filesystem is modelled as the list of paths that exist under the root
(each path a list of components, relative to the root).
`root.rglob(".git")` yields every existing path whose final component is
`.git` — whatever its kind, and at any depth, `pathlib` descending into
repositories' own subtrees as well — and `(child / ".git").exists()` asks
whether the one-component child path extended by `.git` exists. -/

/-- `find_repos` (lines 31-38): in recursive mode, the parent
(`path.parent`, i.e. the path without its last component) of every path
named `.git` anywhere under the root; in non-recursive mode, the immediate
children (one-component paths) whose `.git` child exists. -/
def find_repos (fs : List (List String)) (recursive : Bool) : List (List String) :=
  if recursive then
    (fs.filter (fun p => p.getLast? == some ".git")).map (fun p => p.dropLast)
  else
    fs.filter (fun p => p.length == 1 && fs.contains (p ++ [".git"]))

/-- C10: in recursive mode the locator yields exactly those directories
anywhere under the root whose child is named `.git` — the root itself and
repositories nested inside another repository's working tree included
(inclusion, not exclusion) — while non-recursive mode yields exactly the
immediate children of the root that have a `.git` child. -/
theorem C10_find_repos :
    ∀ (fs : List (List String)) (p : List String),
      (p ∈ find_repos fs true ↔ p ++ [".git"] ∈ fs) ∧
      (p ∈ find_repos fs false ↔ p.length = 1 ∧ p ∈ fs ∧ p ++ [".git"] ∈ fs) := by
  intro fs p
  constructor
  · simp only [find_repos, if_true, List.mem_map, List.mem_filter, beq_iff_eq]
    constructor
    · rintro ⟨x, ⟨hx, hlast⟩, rfl⟩
      obtain ⟨ys, rfl⟩ := List.getLast?_eq_some_iff.mp hlast
      simpa [List.dropLast_concat] using hx
    · intro hmem
      exact ⟨p ++ [".git"], ⟨hmem, by simp⟩, by simp⟩
  · simp only [find_repos, Bool.false_eq_true, if_false, List.mem_filter,
      Bool.and_eq_true, beq_iff_eq, List.contains, List.elem_eq_mem, decide_eq_true_eq]
    constructor
    · rintro ⟨hp, hlen, hgit⟩
      exact ⟨by simpa using hlen, hp, by simpa using hgit⟩
    · rintro ⟨hlen, hp, hgit⟩
      exact ⟨hp, by simpa using hlen, by simpa using hgit⟩

end Ghglance
